import Mathlib

/-!
Verification of the date-normalization and renewal-derivation routines of the
customer-dashboard repository: `parseDateAssume2025` and `computeRenewalDate`,
which appear verbatim in both `src/components/CustomerTable.tsx` and
`src/components/UserDashboard.tsx`.

Modelling choices (shallow embedding of the TypeScript/JavaScript source):

* A JavaScript `Date` value is either an *Invalid Date* (time value `NaN`) or
  a finite time value, which we keep in milliseconds since the Unix epoch as
  an unbounded integer (the engine clamp at ±8.64e15 ms is not modelled; none
  of the inputs the routines construct come near it).
* Strings are analysed through their character lists; the four regular
  expressions of the source (`iso`, `ymdSlash`, `dmySlash`, `dMon`) are
  embedded as total matchers over `List Char` that both test the shape and
  extract the captured numerals, exactly as the source's regex-test +
  re-extraction does.
* `new Date("YYYY-MM-DDT00:00:00Z")` on a string of that exact digit shape is
  valid iff the month is 1..12 and the day is 1..(length of that month in the
  proleptic Gregorian calendar, leap years included), in which case its time
  value is UTC midnight of that civil date; out-of-range fields give an
  Invalid Date.  This is the engine's strict ISO-format path.
* `Date.UTC(2025, month - 1, day)` is `MakeDay` arithmetic: affine in `day`
  with rollover across month ends, never invalid for the arguments the source
  can pass (month 1..12 from the abbreviation table, day 0..99 from one or two
  digits).
* The generic fallback `new Date(dateString)` is the engine's
  implementation-defined heuristic parser; the routines only use it guarded by
  `isNaN`, returning `null` when it yields an Invalid Date.  We model it as an
  explicit parameter `fb : String → Option Int` giving the time value of the
  successfully constructed date, or `none` when construction fails.
* Epoch-day arithmetic for civil dates uses the standard civil-from-days
  conversion for the proleptic Gregorian calendar, which is the calendar
  ECMAScript prescribes.
-/

namespace DateNormalizer

/-- A JavaScript `Date` value as produced by this code: either an Invalid Date
(time value `NaN`) or a time value in milliseconds since the Unix epoch. -/
inductive JSDate where
  | invalid : JSDate
  | valid : Int → JSDate
deriving DecidableEq

def msPerDay : Int := 86400000

/-- Numeric value of a decimal digit character. -/
def digVal (c : Char) : Nat := c.toNat - 48

def num2 (a b : Char) : Nat := 10 * digVal a + digVal b

def num4 (a b c d : Char) : Nat :=
  1000 * digVal a + 100 * digVal b + 10 * digVal c + digVal d

/-- Gregorian leap-year rule, as used by ECMAScript `Date`. -/
def isLeapYear (y : Nat) : Bool :=
  (y % 4 == 0 && y % 100 != 0) || y % 400 == 0

/-- Number of days in month `m` (1..12) of year `y`. -/
def daysInMonth (y m : Nat) : Nat :=
  if m == 2 then (if isLeapYear y then 29 else 28)
  else if m == 4 || m == 6 || m == 9 || m == 11 then 30
  else 31

/-- Days since 1970-01-01 of the proleptic Gregorian civil date `(y, m, d)`.
For `m` in 1..12 this is the standard civil-to-epoch-day conversion; it is
affine in `d`, matching ECMAScript `MakeDay`'s rollover arithmetic in the day
argument. -/
def daysFromCivil (y m d : Int) : Int :=
  let y' := if m ≤ 2 then y - 1 else y
  let era := Int.fdiv y' 400
  let yoe := y' - 400 * era
  let mp := (m + 9) % 12
  let doy := Int.fdiv (153 * mp + 2) 5 + d - 1
  let doe := 365 * yoe + Int.fdiv yoe 4 - Int.fdiv yoe 100 + doy
  146097 * era + doe - 719468

/-- Bounds under which the engine's ISO-format path accepts `YYYY-MM-DD`. -/
def dateOK (y m d : Nat) : Bool :=
  decide (1 ≤ m ∧ m ≤ 12 ∧ 1 ≤ d ∧ d ≤ daysInMonth y m)

/-- UTC midnight of civil date `(y, m, d)` as a `Date` time value. -/
def utcMidnight (y m d : Int) : JSDate :=
  JSDate.valid (msPerDay * daysFromCivil y m d)

/-- Models `new Date(str + "T00:00:00Z")` where `str` has the exact digit
shape `YYYY-MM-DD` with fields `y`, `m`, `d` (the only way the source calls
it): a valid `Date` at UTC midnight when the fields are in range, an Invalid
Date otherwise. -/
def mkDateZ (y m d : Nat) : JSDate :=
  if dateOK y m d then utcMidnight y m d else JSDate.invalid

/-- Character replacement performed by `.replace(/\//g, "-")`. -/
def replChar (c : Char) : Char :=
  if c == '/' then '-' else c

/-- Models `s.replace(/\//g, "-")`: global replacement of `/` by `-`. -/
def replaceSlashes (s : String) : String :=
  String.mk (s.data.map replChar)

/-- JavaScript regex `\w` (no unicode flag): ASCII letter, digit or underscore. -/
def wordChar (c : Char) : Bool :=
  c.isAlpha || c.isDigit || c == '_'

/-- Matcher for `/^\d{4}X\d{2}X\d{2}$/` with separator `X`, returning the
numeric year, month and day captured positionally.  With `sep = '-'` this is
the source's `iso` regex, with `sep = '/'` its `ymdSlash` regex. -/
def sepYMDMatch (sep : Char) : List Char → Option (Nat × Nat × Nat)
  | [a, b, c, d, s1, e, f, s2, g, h] =>
    if a.isDigit && b.isDigit && c.isDigit && d.isDigit && s1 == sep
        && e.isDigit && f.isDigit && s2 == sep && g.isDigit && h.isDigit
    then some (num4 a b c d, num2 e f, num2 g h)
    else none
  | _ => none

/-- Matcher for the source's `dmySlash` regex `/^\d{2}\/\d{2}\/\d{4}$/`,
returning `(day, month, year)` positionally, day first. -/
def dmyMatch : List Char → Option (Nat × Nat × Nat)
  | [a, b, s1, c, d, s2, e, f, g, h] =>
    if a.isDigit && b.isDigit && s1 == '/' && c.isDigit && d.isDigit
        && s2 == '/' && e.isDigit && f.isDigit && g.isDigit && h.isDigit
    then some (num2 a b, num2 c d, num4 e f g h)
    else none
  | _ => none

/-- Matcher for the source's `dMon` regex `/^(\d{1,2})-(\w{3})$/i`, returning
the numeric day (from `parseInt(m[1], 10)`) and the three captured word
characters. -/
def dMonRegex : List Char → Option (Nat × List Char)
  | [a, h, x, y, z] =>
    if a.isDigit && h == '-' && wordChar x && wordChar y && wordChar z
    then some (digVal a, [x, y, z])
    else none
  | [a, b, h, x, y, z] =>
    if a.isDigit && b.isDigit && h == '-' && wordChar x && wordChar y && wordChar z
    then some (num2 a b, [x, y, z])
    else none
  | _ => none

/-- The source's twelve-entry abbreviation table
`jan:1, feb:2, ..., dec:12`, keyed by lowercase characters. -/
def monthMap : List Char → Option Nat
  | ['j', 'a', 'n'] => some 1
  | ['f', 'e', 'b'] => some 2
  | ['m', 'a', 'r'] => some 3
  | ['a', 'p', 'r'] => some 4
  | ['m', 'a', 'y'] => some 5
  | ['j', 'u', 'n'] => some 6
  | ['j', 'u', 'l'] => some 7
  | ['a', 'u', 'g'] => some 8
  | ['s', 'e', 'p'] => some 9
  | ['o', 'c', 't'] => some 10
  | ['n', 'o', 'v'] => some 11
  | ['d', 'e', 'c'] => some 12
  | _ => none

/-- The source's day-abbreviated-month branch condition: the `dMon` regex
matches and `map[monAbbr.toLowerCase()]` is defined (truthy).  Returns the
numeric day and the month number 1..12. -/
def dMonMatch (l : List Char) : Option (Nat × Nat) :=
  match dMonRegex l with
  | none => none
  | some (day, abc) =>
    match monthMap (abc.map Char.toLower) with
    | none => none
    | some m => some (day, m)

/-- Year/month/day extraction of the three fixed-width numeric patterns, in
the order the source tries them (ISO, slash-year-first, slash-day-first with
fields reordered to year/month/day). -/
def structuralYMD (l : List Char) : Option (Nat × Nat × Nat) :=
  match sepYMDMatch '-' l with
  | some t => some t
  | none =>
    match sepYMDMatch '/' l with
    | some t => some t
    | none =>
      match dmyMatch l with
      | some (d, m, y) => some (y, m, d)
      | none => none

/-- Slash-delimited day/month/year shapes in which the day or the month field
has only one digit (`D/M/YYYY`, `D/MM/YYYY`, `DD/M/YYYY`), returning
`(day, month, year)`.  These are exactly the slash day-first shapes the
two-digit `dmySlash` regex does not accept. -/
def shortDmyMatch : List Char → Option (Nat × Nat × Nat)
  | [a, '/', c, '/', e, f, g, h] =>
    if a.isDigit && c.isDigit && e.isDigit && f.isDigit && g.isDigit && h.isDigit
    then some (digVal a, digVal c, num4 e f g h)
    else none
  | [a, '/', c, d, '/', e, f, g, h] =>
    if a.isDigit && c.isDigit && d.isDigit && e.isDigit && f.isDigit
        && g.isDigit && h.isDigit
    then some (digVal a, num2 c d, num4 e f g h)
    else none
  | [a, b, '/', c, '/', e, f, g, h] =>
    if a.isDigit && b.isDigit && c.isDigit && e.isDigit && f.isDigit
        && g.isDigit && h.isDigit
    then some (num2 a b, digVal c, num4 e f g h)
    else none
  | _ => none

/-- Models `result.setUTCDate(result.getUTCDate() + 30)` on a fresh copy of a
`Date`: `MakeDay` shifts the day number by exactly 30 preserving the time of
day, i.e. the time value grows by 30 days of milliseconds; `NaN` propagates on
an Invalid Date. -/
def addUTCDate30 : JSDate → JSDate
  | JSDate.invalid => JSDate.invalid
  | JSDate.valid ms => JSDate.valid (ms + 30 * msPerDay)

namespace CustomerTable

/-- Embedding of `parseDateAssume2025` from `src/components/CustomerTable.tsx`
(lines 96–123).  `fb` is the engine's generic `new Date(string)` heuristic
parser (see the module docstring); `none` for the input models `null`, and the
empty string is the only falsy string, so `!dateString` is the `isEmpty` test
on the character list. -/
def parseDateAssume2025 (fb : String → Option Int) :
    Option String → Option JSDate
  | none => none
  | some s =>
    if s.data.isEmpty then none
    else
      match sepYMDMatch '-' s.data with
      | some (y, m, d) => some (mkDateZ y m d)
      | none =>
        match sepYMDMatch '/' s.data with
        | some (y, m, d) => some (mkDateZ y m d)
        | none =>
          match dmyMatch s.data with
          | some (d, m, y) => some (mkDateZ y m d)
          | none =>
            match dMonMatch s.data with
            | some (day, month) =>
              some (JSDate.valid (msPerDay * daysFromCivil 2025 month day))
            | none => Option.map JSDate.valid (fb s)

/-- Embedding of `computeRenewalDate` from `src/components/CustomerTable.tsx`
(lines 131–140): an existing renewal date (any non-null `Date`, Invalid Date
included, is truthy) wins; otherwise the charging date shifted by 30 days;
otherwise `null`. -/
def computeRenewalDate (fb : String → Option Int)
    (charging existingRenewal : Option String) : Option JSDate :=
  match parseDateAssume2025 fb existingRenewal with
  | some existing => some existing
  | none =>
    match parseDateAssume2025 fb charging with
    | none => none
    | some base => some (addUTCDate30 base)

end CustomerTable

namespace UserDashboard

/-- Embedding of `parseDateAssume2025` from `src/components/UserDashboard.tsx`
(lines 56–83), which is textually identical to the CustomerTable copy. -/
def parseDateAssume2025 (fb : String → Option Int) :
    Option String → Option JSDate
  | none => none
  | some s =>
    if s.data.isEmpty then none
    else
      match sepYMDMatch '-' s.data with
      | some (y, m, d) => some (mkDateZ y m d)
      | none =>
        match sepYMDMatch '/' s.data with
        | some (y, m, d) => some (mkDateZ y m d)
        | none =>
          match dmyMatch s.data with
          | some (d, m, y) => some (mkDateZ y m d)
          | none =>
            match dMonMatch s.data with
            | some (day, month) =>
              some (JSDate.valid (msPerDay * daysFromCivil 2025 month day))
            | none => Option.map JSDate.valid (fb s)

/-- Embedding of `computeRenewalDate` from `src/components/UserDashboard.tsx`
(lines 91–99), textually identical to the CustomerTable copy. -/
def computeRenewalDate (fb : String → Option Int)
    (charging existingRenewal : Option String) : Option JSDate :=
  match parseDateAssume2025 fb existingRenewal with
  | some existing => some existing
  | none =>
    match parseDateAssume2025 fb charging with
    | none => none
    | some base => some (addUTCDate30 base)

end UserDashboard

/-! ### Helper lemmas about the matchers -/

theorem sepYMDMatch_eq_none_of_length (sep : Char) (l : List Char)
    (h : l.length ≠ 10) : sepYMDMatch sep l = none := by
  rcases l with _ | ⟨a, _ | ⟨b, _ | ⟨c, _ | ⟨d, _ | ⟨e, _ | ⟨f, _ | ⟨g, _ |
    ⟨i, _ | ⟨j, _ | ⟨k, _ | ⟨m, t⟩⟩⟩⟩⟩⟩⟩⟩⟩⟩⟩ <;>
    first
      | rfl
      | simp at h

theorem dmyMatch_eq_none_of_length (l : List Char)
    (h : l.length ≠ 10) : dmyMatch l = none := by
  rcases l with _ | ⟨a, _ | ⟨b, _ | ⟨c, _ | ⟨d, _ | ⟨e, _ | ⟨f, _ | ⟨g, _ |
    ⟨i, _ | ⟨j, _ | ⟨k, _ | ⟨m, t⟩⟩⟩⟩⟩⟩⟩⟩⟩⟩⟩ <;>
    first
      | rfl
      | simp at h

theorem dMonRegex_eq_none_of_length (l : List Char)
    (h5 : l.length ≠ 5) (h6 : l.length ≠ 6) : dMonRegex l = none := by
  rcases l with _ | ⟨a, _ | ⟨b, _ | ⟨c, _ | ⟨d, _ | ⟨e, _ | ⟨f, _ | ⟨g, t⟩⟩⟩⟩⟩⟩⟩ <;>
    first
      | rfl
      | simp at h5 h6

theorem dMonMatch_eq_none_of_length (l : List Char)
    (h5 : l.length ≠ 5) (h6 : l.length ≠ 6) : dMonMatch l = none := by
  unfold dMonMatch
  rw [dMonRegex_eq_none_of_length l h5 h6]

theorem sepYMDMatch_length (sep : Char) {l : List Char} {t : Nat × Nat × Nat}
    (h : sepYMDMatch sep l = some t) : l.length = 10 := by
  by_contra hl
  rw [sepYMDMatch_eq_none_of_length sep l hl] at h
  exact Option.noConfusion h

theorem dmyMatch_length {l : List Char} {t : Nat × Nat × Nat}
    (h : dmyMatch l = some t) : l.length = 10 := by
  by_contra hl
  rw [dmyMatch_eq_none_of_length l hl] at h
  exact Option.noConfusion h

theorem slash_not_digit : ('/' : Char).isDigit = false := rfl

theorem replChar_of_digit {c : Char} (h : c.isDigit = true) : replChar c = c := by
  unfold replChar
  by_cases hc : c = '/'
  · subst hc
    simp at h
  · simp [hc]

/-- A string accepted by the day-first matcher is rejected by both
fixed-separator year-first matchers (its third character is a slash where they
require a digit). -/
theorem sepYMDMatch_eq_none_of_dmyMatch (sep : Char) {l : List Char}
    {t : Nat × Nat × Nat} (h : dmyMatch l = some t) :
    sepYMDMatch sep l = none := by
  rcases l with _ | ⟨a, _ | ⟨b, _ | ⟨c, _ | ⟨d, _ | ⟨e, _ | ⟨f, _ | ⟨g, _ |
    ⟨i, _ | ⟨j, _ | ⟨k, _ | ⟨m, t'⟩⟩⟩⟩⟩⟩⟩⟩⟩⟩⟩ <;> simp_all [dmyMatch]
  simp [sepYMDMatch, slash_not_digit]

/-- A string accepted by the slash year-first matcher is rejected by the ISO
matcher (its fifth character is a slash where ISO requires a hyphen). -/
theorem isoMatch_eq_none_of_ymdSlash {l : List Char} {t : Nat × Nat × Nat}
    (h : sepYMDMatch '/' l = some t) : sepYMDMatch '-' l = none := by
  rcases l with _ | ⟨a, _ | ⟨b, _ | ⟨c, _ | ⟨d, _ | ⟨e, _ | ⟨f, _ | ⟨g, _ |
    ⟨i, _ | ⟨j, _ | ⟨k, _ | ⟨m, t'⟩⟩⟩⟩⟩⟩⟩⟩⟩⟩⟩ <;> simp_all [sepYMDMatch]

/-- Replacing every slash by a hyphen turns a slash year-first match into an
ISO match with the same captured fields. -/
theorem isoMatch_map_replChar_of_ymdSlash {l : List Char} {t : Nat × Nat × Nat}
    (h : sepYMDMatch '/' l = some t) :
    sepYMDMatch '-' (l.map replChar) = some t := by
  rcases l with _ | ⟨a, _ | ⟨b, _ | ⟨c, _ | ⟨d, _ | ⟨e, _ | ⟨f, _ | ⟨g, _ |
    ⟨i, _ | ⟨j, _ | ⟨k, _ | ⟨m, t'⟩⟩⟩⟩⟩⟩⟩⟩⟩⟩⟩ <;> simp_all [sepYMDMatch]
  rcases h with ⟨⟨⟨⟨⟨⟨⟨⟨⟨⟨ha, hb⟩, hc⟩, hd⟩, he⟩, hf⟩, hg⟩, hi⟩, hj⟩, hk⟩, ht⟩
  simp [replChar_of_digit, ha, hb, hc, hd, hf, hg, hj, hk,
    show replChar '/' = '-' from rfl]
  exact ht

theorem shortDmyMatch_length {l : List Char} {t : Nat × Nat × Nat}
    (h : shortDmyMatch l = some t) : l.length = 8 ∨ l.length = 9 := by
  by_contra hl
  push_neg at hl
  obtain ⟨h8, h9⟩ := hl
  rcases l with _ | ⟨a, _ | ⟨b, _ | ⟨c, _ | ⟨d, _ | ⟨e, _ | ⟨f, _ | ⟨g, _ |
    ⟨i, _ | ⟨j, _ | ⟨k, t'⟩⟩⟩⟩⟩⟩⟩⟩⟩⟩ <;> simp_all [shortDmyMatch]

theorem isEmpty_false_of_length_ne_zero {l : List Char} (h : l.length ≠ 0) :
    l.isEmpty = false := by
  cases l
  · simp at h
  · rfl

/-! ### The five recognized patterns in source order, for the precedence claim -/

/-- The five recognized forms, in the textual order of the source's
if-chain. -/
inductive DatePattern where
  | iso : DatePattern
  | ymdSlash : DatePattern
  | dmySlash : DatePattern
  | dayMon : DatePattern
  | generic : DatePattern
deriving DecidableEq

/-- Whether a pattern matches the input, in the sense in which the source
takes its branch: a regex match for the three numeric forms, a regex match
*plus* a successful table lookup for the day-abbreviated-month form, and
unconditionally for the generic fallback. -/
def patternTest (l : List Char) : DatePattern → Bool
  | DatePattern.iso => (sepYMDMatch '-' l).isSome
  | DatePattern.ymdSlash => (sepYMDMatch '/' l).isSome
  | DatePattern.dmySlash => (dmyMatch l).isSome
  | DatePattern.dayMon => (dMonMatch l).isSome
  | DatePattern.generic => true

/-- The fixed precedence order of the source:
ISO → slash-year-first → slash-day-first → day-abbreviated-month → generic. -/
def patternOrder : List DatePattern :=
  [DatePattern.iso, DatePattern.ymdSlash, DatePattern.dmySlash,
    DatePattern.dayMon, DatePattern.generic]

/-- First pattern in the list that matches the input. -/
def firstMatching (l : List Char) : List DatePattern → Option DatePattern
  | [] => none
  | p :: ps => if patternTest l p then some p else firstMatching l ps

/-- The result each pattern produces when it is the one taken. -/
def patternResult (fb : String → Option Int) (s : String) :
    DatePattern → Option JSDate
  | DatePattern.iso =>
    match sepYMDMatch '-' s.data with
    | some (y, m, d) => some (mkDateZ y m d)
    | none => none
  | DatePattern.ymdSlash =>
    match sepYMDMatch '/' s.data with
    | some (y, m, d) => some (mkDateZ y m d)
    | none => none
  | DatePattern.dmySlash =>
    match dmyMatch s.data with
    | some (d, m, y) => some (mkDateZ y m d)
    | none => none
  | DatePattern.dayMon =>
    match dMonMatch s.data with
    | some (day, month) =>
      some (JSDate.valid (msPerDay * daysFromCivil 2025 month day))
    | none => none
  | DatePattern.generic => Option.map JSDate.valid (fb s)

theorem mkDateZ_eq_invalid_iff (y m d : Nat) :
    mkDateZ y m d = JSDate.invalid ↔ dateOK y m d = false := by
  unfold mkDateZ utcMidnight
  split <;> simp_all

/-! ### Concrete inputs named for use in the claim theorems -/

def exIsoDate : String := "2025-08-05"

def exYmdSlashDate : String := "2025/08/05"

def exDmySlashDate : String := "05/08/2025"

def exDayMonMixed : String := "5-Aug"

def exDayMonUpper : String := "5-AUG"

def exDayMonLower : String := "5-aug"

def exBadMonthIso : String := "2025-13-01"

def exNotADate : String := "not-a-date"

def exEmpty : String := ""

def exShortSlash : String := "5/8/2025"

def exEarlyRenewal : String := "2025-01-01"

def exBadAbbrev : String := "5-xyz"

/-! ### Claim theorems -/

/-- C8: `parse(null)` yields `null`, `parse("")` yields `null`, and
`parse("not-a-date")` — a non-empty string matching none of the recognized
formats, when the generic fallback also rejects it — yields `null`; absence
and malformation collapse to the same `None` outcome rather than an error. -/
theorem C8_absence_and_malformation_yield_none
    (fb : String → Option Int) :
    CustomerTable.parseDateAssume2025 fb none = none ∧
    CustomerTable.parseDateAssume2025 fb (some exEmpty) = none ∧
    (fb exNotADate = none →
      CustomerTable.parseDateAssume2025 fb (some exNotADate) = none) := by
  refine ⟨rfl, rfl, fun hf => ?_⟩
  show Option.map JSDate.valid (fb exNotADate) = none
  rw [hf]
  rfl

/-- Closed witness for C8: with a fallback that rejects every string,
all three inputs evaluate to `none`. -/
theorem C8_witness :
    CustomerTable.parseDateAssume2025 (fun _ => none) none = none ∧
    CustomerTable.parseDateAssume2025 (fun _ => none) (some exEmpty) = none ∧
    CustomerTable.parseDateAssume2025 (fun _ => none) (some exNotADate) = none := by
  obtain ⟨h1, h2, h3⟩ := C8_absence_and_malformation_yield_none (fun _ => none)
  exact ⟨h1, h2, h3 rfl⟩

/-- C9: the routine duplicated across the two components is extensionally
equal — for every fallback, input string-or-null and pair of date fields, the
CustomerTable and UserDashboard copies of `parseDateAssume2025` and of
`computeRenewalDate` return the same result. -/
theorem C9_duplicated_copies_extensionally_equal :
    ∀ (fb : String → Option Int) (s charging renewal : Option String),
      CustomerTable.parseDateAssume2025 fb s
        = UserDashboard.parseDateAssume2025 fb s ∧
      CustomerTable.computeRenewalDate fb charging renewal
        = UserDashboard.computeRenewalDate fb charging renewal :=
  fun _ _ _ _ => ⟨rfl, rfl⟩

/-- C2: an existing renewal date that parses (returns a non-null `Date`) is
returned verbatim by `computeRenewalDate`, never re-derived from `charging`;
if it does not parse but `charging` does, the result is the charging date
shifted by 30 days; if neither parses, the result is `null`. -/
theorem C2_existing_renewal_precedence :
    ∀ (fb : String → Option Int) (charging renewal : Option String),
      (∀ e : JSDate,
        CustomerTable.parseDateAssume2025 fb renewal = some e →
        CustomerTable.computeRenewalDate fb charging renewal = some e) ∧
      (CustomerTable.parseDateAssume2025 fb renewal = none →
        ∀ b : JSDate,
          CustomerTable.parseDateAssume2025 fb charging = some b →
          CustomerTable.computeRenewalDate fb charging renewal
            = some (addUTCDate30 b)) ∧
      (CustomerTable.parseDateAssume2025 fb renewal = none →
        CustomerTable.parseDateAssume2025 fb charging = none →
        CustomerTable.computeRenewalDate fb charging renewal = none) := by
  intro fb charging renewal
  refine ⟨fun e he => ?_, fun hn b hb => ?_, fun hn hc => ?_⟩ <;>
    simp [CustomerTable.computeRenewalDate, *]

/-- Closed witness for C2: an explicit renewal date of 2025-01-01, *earlier*
than the charging date 2025-08-05, is still returned verbatim. -/
theorem C2_witness :
    CustomerTable.computeRenewalDate (fun _ => none)
      (some exIsoDate) (some exEarlyRenewal) = some (utcMidnight 2025 1 1) :=
  (C2_existing_renewal_precedence (fun _ => none)
      (some exIsoDate) (some exEarlyRenewal)).1
    (utcMidnight 2025 1 1) (by decide)

/-- C7: renewal derivation adds exactly 30 calendar days in UTC (30 days of
milliseconds on the time value, which carries across month and year
boundaries); in particular `deriveRenewalDate("2025-08-05", null)` yields UTC
midnight of 2025-09-04, and that date is 30 civil days after 2025-08-05. -/
theorem C7_renewal_adds_thirty_days :
    (∀ fb : String → Option Int,
      CustomerTable.computeRenewalDate fb (some exIsoDate) none
        = some (utcMidnight 2025 9 4)) ∧
    daysFromCivil 2025 9 4 = daysFromCivil 2025 8 5 + 30 ∧
    (∀ (fb : String → Option Int) (charging renewal : Option String) (t : Int),
      CustomerTable.parseDateAssume2025 fb renewal = none →
      CustomerTable.parseDateAssume2025 fb charging = some (JSDate.valid t) →
      CustomerTable.computeRenewalDate fb charging renewal
        = some (JSDate.valid (t + 30 * msPerDay))) := by
  refine ⟨fun fb => rfl, by decide, fun fb charging renewal t hn hb => ?_⟩
  simp [CustomerTable.computeRenewalDate, hn, hb, addUTCDate30]

/-- Closed witness for C7: the general 30-day shift applied at the concrete
charging date 2025-08-05 with no explicit renewal date. -/
theorem C7_witness :
    CustomerTable.computeRenewalDate (fun _ => none) (some exIsoDate) none
      = some (JSDate.valid (msPerDay * daysFromCivil 2025 8 5 + 30 * msPerDay)) :=
  C7_renewal_adds_thirty_days.2.2 (fun _ => none) (some exIsoDate) none
    (msPerDay * daysFromCivil 2025 8 5) rfl (by decide)

/-- C4: for every input accepted by the day-abbreviated-month branch (the
`dMon` regex matches and the case-insensitive three-letter abbreviation is in
the twelve-entry table), parse takes the day from the numeral, the month from
the lookup, and hard-codes the year 2025 (`Date.UTC(2025, month - 1, day)`);
in particular "5-Aug", "5-AUG" and "5-aug" all yield 2025-08-05.  A matching
string whose abbreviation is not in the table falls through to the generic
fallback. -/
theorem C4_day_abbreviated_month_assumes_2025 :
    (∀ (fb : String → Option Int) (s : String) (day month : Nat),
      dMonMatch s.data = some (day, month) →
      CustomerTable.parseDateAssume2025 fb (some s)
        = some (JSDate.valid (msPerDay * daysFromCivil 2025 month day))) ∧
    (∀ fb : String → Option Int,
      CustomerTable.parseDateAssume2025 fb (some exDayMonMixed)
        = some (utcMidnight 2025 8 5) ∧
      CustomerTable.parseDateAssume2025 fb (some exDayMonUpper)
        = some (utcMidnight 2025 8 5) ∧
      CustomerTable.parseDateAssume2025 fb (some exDayMonLower)
        = some (utcMidnight 2025 8 5)) ∧
    (∀ (fb : String → Option Int) (s : String) (day : Nat) (abc : List Char),
      dMonRegex s.data = some (day, abc) →
      monthMap (abc.map Char.toLower) = none →
      CustomerTable.parseDateAssume2025 fb (some s)
        = Option.map JSDate.valid (fb s)) := by
  have hlen : ∀ {l : List Char} {p : Nat × List Char}, dMonRegex l = some p →
      l.length = 5 ∨ l.length = 6 := by
    intro l p hreg
    by_contra hl
    push_neg at hl
    rw [dMonRegex_eq_none_of_length l hl.1 hl.2] at hreg
    exact Option.noConfusion hreg
  refine ⟨fun fb s day month h => ?_, fun fb => ⟨rfl, rfl, rfl⟩,
    fun fb s day abc hreg hmap => ?_⟩
  · rcases hr : dMonRegex s.data with _ | ⟨d', abc⟩
    · simp [dMonMatch, hr] at h
    · have h56 := hlen hr
      have h10 : s.data.length ≠ 10 := by rcases h56 with h5 | h6 <;> omega
      have he : s.data.isEmpty = false :=
        isEmpty_false_of_length_ne_zero (by rcases h56 with h5 | h6 <;> omega)
      simp [CustomerTable.parseDateAssume2025, he,
        sepYMDMatch_eq_none_of_length _ _ h10,
        dmyMatch_eq_none_of_length _ h10, h]
  · have h56 := hlen hreg
    have h10 : s.data.length ≠ 10 := by rcases h56 with h5 | h6 <;> omega
    have he : s.data.isEmpty = false :=
      isEmpty_false_of_length_ne_zero (by rcases h56 with h5 | h6 <;> omega)
    simp [CustomerTable.parseDateAssume2025, he,
      sepYMDMatch_eq_none_of_length _ _ h10,
      dmyMatch_eq_none_of_length _ h10, dMonMatch, hreg, hmap]

/-- Closed witness for C4: "5-Aug" through the general branch theorem, and
"5-xyz" (abbreviation not in the table) falling through to a rejecting
fallback. -/
theorem C4_witness :
    CustomerTable.parseDateAssume2025 (fun _ => none) (some exDayMonMixed)
      = some (JSDate.valid (msPerDay * daysFromCivil 2025 8 5)) ∧
    CustomerTable.parseDateAssume2025 (fun _ => none) (some exBadAbbrev)
      = none :=
  ⟨C4_day_abbreviated_month_assumes_2025.1 (fun _ => none) exDayMonMixed 5 8
      (by decide),
    C4_day_abbreviated_month_assumes_2025.2.2 (fun _ => none) exBadAbbrev 5
      ['x', 'y', 'z'] (by decide) (by decide)⟩

/-- C5: every input accepted by the `dmySlash` regex (`DD/MM/YYYY`) is parsed
positionally day-first: the result is the ISO construction with year, month
and day in the year/month/day roles of `YYYY-MM-DD`; in particular
"05/08/2025" yields 2025-08-05. -/
theorem C5_slash_day_first_positional :
    (∀ (fb : String → Option Int) (s : String) (d m y : Nat),
      dmyMatch s.data = some (d, m, y) →
      CustomerTable.parseDateAssume2025 fb (some s) = some (mkDateZ y m d)) ∧
    (∀ fb : String → Option Int,
      CustomerTable.parseDateAssume2025 fb (some exDmySlashDate)
        = some (utcMidnight 2025 8 5)) := by
  refine ⟨fun fb s d m y h => ?_, fun fb => rfl⟩
  have h10 := dmyMatch_length h
  have he : s.data.isEmpty = false :=
    isEmpty_false_of_length_ne_zero (by omega)
  simp [CustomerTable.parseDateAssume2025, he,
    sepYMDMatch_eq_none_of_dmyMatch '-' h,
    sepYMDMatch_eq_none_of_dmyMatch '/' h, h]

/-- Closed witness for C5: the general day-first branch theorem applied at
"05/08/2025". -/
theorem C5_witness :
    CustomerTable.parseDateAssume2025 (fun _ => none) (some exDmySlashDate)
      = some (mkDateZ 2025 8 5) :=
  C5_slash_day_first_positional.1 (fun _ => none) exDmySlashDate 5 8 2025
    (by decide)

/-- C6: every input accepted by the `ymdSlash` regex (`YYYY/MM/DD`) parses to
the same result as the same string with every slash replaced by a hyphen (the
ISO form); in particular "2025/08/05" parses identically to "2025-08-05",
namely to 2025-08-05. -/
theorem C6_slash_year_first_equals_iso :
    (∀ (fb : String → Option Int) (s : String) (t : Nat × Nat × Nat),
      sepYMDMatch '/' s.data = some t →
      CustomerTable.parseDateAssume2025 fb (some s)
        = CustomerTable.parseDateAssume2025 fb (some (replaceSlashes s))) ∧
    (∀ fb : String → Option Int,
      CustomerTable.parseDateAssume2025 fb (some exYmdSlashDate)
        = CustomerTable.parseDateAssume2025 fb (some exIsoDate) ∧
      CustomerTable.parseDateAssume2025 fb (some exYmdSlashDate)
        = some (utcMidnight 2025 8 5)) := by
  refine ⟨fun fb s t h => ?_, fun fb => ⟨rfl, rfl⟩⟩
  rcases t with ⟨y, m, d⟩
  have h10 := sepYMDMatch_length '/' h
  have he : s.data.isEmpty = false :=
    isEmpty_false_of_length_ne_zero (by omega)
  have hdata : (replaceSlashes s).data = s.data.map replChar := rfl
  have hne : s.data ≠ [] := by
    intro e
    rw [e] at h10
    simp at h10
  have hne2 : s.data.map replChar ≠ [] := by simp [hne]
  have he2 : (replaceSlashes s).data.isEmpty = false := by
    rw [hdata]
    exact isEmpty_false_of_length_ne_zero (by simp [h10])
  simp [CustomerTable.parseDateAssume2025, he, he2, hdata, hne, hne2,
    isoMatch_eq_none_of_ymdSlash h, isoMatch_map_replChar_of_ymdSlash h, h]

/-- Closed witness for C6: the general slash-to-hyphen equivalence applied at
"2025/08/05". -/
theorem C6_witness :
    CustomerTable.parseDateAssume2025 (fun _ => none) (some exYmdSlashDate)
      = CustomerTable.parseDateAssume2025 (fun _ => none)
          (some (replaceSlashes exYmdSlashDate)) :=
  C6_slash_year_first_equals_iso.1 (fun _ => none) exYmdSlashDate (2025, 8, 5)
    (by decide)

/-- C10: a slash-delimited date string whose day or month field has only one
digit (shapes `D/M/YYYY`, `D/MM/YYYY`, `DD/M/YYYY`) is not matched by the
two-digit day-first regex and falls through past every structural pattern to
the generic fallback parser. -/
theorem C10_single_digit_slash_falls_to_fallback :
    ∀ (fb : String → Option Int) (s : String) (t : Nat × Nat × Nat),
      shortDmyMatch s.data = some t →
      dmyMatch s.data = none ∧
      CustomerTable.parseDateAssume2025 fb (some s)
        = Option.map JSDate.valid (fb s) := by
  intro fb s t h
  have h89 := shortDmyMatch_length h
  have h10 : s.data.length ≠ 10 := by rcases h89 with h8 | h9 <;> omega
  have hd : dmyMatch s.data = none := dmyMatch_eq_none_of_length _ h10
  have he : s.data.isEmpty = false :=
    isEmpty_false_of_length_ne_zero (by rcases h89 with h8 | h9 <;> omega)
  have h5 : s.data.length ≠ 5 := by rcases h89 with h8 | h9 <;> omega
  have h6 : s.data.length ≠ 6 := by rcases h89 with h8 | h9 <;> omega
  refine ⟨hd, ?_⟩
  simp [CustomerTable.parseDateAssume2025, he,
    sepYMDMatch_eq_none_of_length _ _ h10, hd,
    dMonMatch_eq_none_of_length _ h5 h6]

/-- Closed witness for C10: "5/8/2025" is rejected by the day-first regex and
handed to the fallback, whose result (here the epoch) is returned. -/
theorem C10_witness :
    dmyMatch exShortSlash.data = none ∧
    CustomerTable.parseDateAssume2025 (fun _ => some 0) (some exShortSlash)
      = some (JSDate.valid 0) :=
  C10_single_digit_slash_falls_to_fallback (fun _ => some 0) exShortSlash
    (5, 8, 2025) (by decide)

/-- C3: the recognized formats are tried in the fixed precedence order
ISO → slash-year-first → slash-day-first → day-abbreviated-month → generic
fallback, and for every (non-empty, non-null) input the first pattern that
matches determines the result. -/
theorem C3_fixed_precedence_order :
    ∀ (fb : String → Option Int) (s : String) (p : DatePattern),
      s.data.isEmpty = false →
      firstMatching s.data patternOrder = some p →
      CustomerTable.parseDateAssume2025 fb (some s) = patternResult fb s p := by
  intro fb s p he hf
  rcases h1 : sepYMDMatch '-' s.data with _ | ⟨y1, m1, d1⟩
  · rcases h2 : sepYMDMatch '/' s.data with _ | ⟨y2, m2, d2⟩
    · rcases h3 : dmyMatch s.data with _ | ⟨d3, m3, y3⟩
      · rcases h4 : dMonMatch s.data with _ | ⟨day4, mon4⟩
        · simp [firstMatching, patternOrder, patternTest, h1, h2, h3, h4] at hf
          subst hf
          simp [CustomerTable.parseDateAssume2025, patternResult, he,
            h1, h2, h3, h4]
        · simp [firstMatching, patternOrder, patternTest, h1, h2, h3, h4] at hf
          subst hf
          simp [CustomerTable.parseDateAssume2025, patternResult, he,
            h1, h2, h3, h4]
      · simp [firstMatching, patternOrder, patternTest, h1, h2, h3] at hf
        subst hf
        simp [CustomerTable.parseDateAssume2025, patternResult, he, h1, h2, h3]
    · simp [firstMatching, patternOrder, patternTest, h1, h2] at hf
      subst hf
      simp [CustomerTable.parseDateAssume2025, patternResult, he, h1, h2]
  · simp [firstMatching, patternOrder, patternTest, h1] at hf
    subst hf
    simp [CustomerTable.parseDateAssume2025, patternResult, he, h1]

/-- Closed witness for C3: on "2025-08-05" the first matching pattern is ISO
and the parse result is the ISO pattern's result. -/
theorem C3_witness :
    CustomerTable.parseDateAssume2025 (fun _ => none) (some exIsoDate)
      = patternResult (fun _ => none) exIsoDate DatePattern.iso :=
  C3_fixed_precedence_order (fun _ => none) exIsoDate DatePattern.iso
    (by decide) (by decide)

/-- C1, counterexample: it is *not* the case that parse always returns a valid
date or `null`.  The input "2025-13-01" matches the ISO regex, and
`new Date("2025-13-01T00:00:00Z")` is an Invalid Date (month 13), which the
ISO branch returns without an `isNaN` guard. -/
theorem C1_counterexample_invalid_date_returned :
    ¬ (∀ (fb : String → Option Int) (s : Option String),
        CustomerTable.parseDateAssume2025 fb s = none ∨
        ∃ t : Int, CustomerTable.parseDateAssume2025 fb s = some (JSDate.valid t)) := by
  intro hclaim
  have heval : CustomerTable.parseDateAssume2025 (fun _ => none)
      (some exBadMonthIso) = some JSDate.invalid := by decide
  rcases hclaim (fun _ => none) (some exBadMonthIso) with h | ⟨t, h⟩
  · rw [heval] at h
    exact Option.noConfusion h
  · rw [heval] at h
    exact JSDate.noConfusion (Option.some.inj h)

/-- C1, amended: parse is total and never throws (it is a function into
`Option JSDate`), `parse(null)` is `null`, and the result is a valid calendar
date or `null` *except* exactly when the input matches one of the three
fixed-width numeric patterns (ISO, `YYYY/MM/DD`, `DD/MM/YYYY`) with an
out-of-range month or day field, in which case an Invalid Date object is
returned instead of `null`. -/
theorem C1_amended_totality_and_invalid_characterization :
    ∀ (fb : String → Option Int) (s : String),
      CustomerTable.parseDateAssume2025 fb none = none ∧
      (CustomerTable.parseDateAssume2025 fb (some s) = some JSDate.invalid ↔
        ∃ y m d : Nat, structuralYMD s.data = some (y, m, d) ∧
          dateOK y m d = false) := by
  intro fb s
  refine ⟨rfl, ?_⟩
  rcases hd : s.data with _ | ⟨c, cs⟩
  · simp [CustomerTable.parseDateAssume2025, hd, structuralYMD,
      sepYMDMatch, dmyMatch]
  · rcases h1 : sepYMDMatch '-' (c :: cs) with _ | ⟨y1, m1, d1⟩
    · rcases h2 : sepYMDMatch '/' (c :: cs) with _ | ⟨y2, m2, d2⟩
      · rcases h3 : dmyMatch (c :: cs) with _ | ⟨d3, m3, y3⟩
        · rcases h4 : dMonMatch (c :: cs) with _ | ⟨day4, mon4⟩
          · rcases hfb : fb s with _ | v <;>
              simp [CustomerTable.parseDateAssume2025, structuralYMD, hd,
                h1, h2, h3, h4, hfb]
          · simp [CustomerTable.parseDateAssume2025, structuralYMD, hd,
              h1, h2, h3, h4]
        · simp [CustomerTable.parseDateAssume2025, structuralYMD, hd,
            h1, h2, h3, mkDateZ_eq_invalid_iff]
          exact ⟨fun h => ⟨_, _, _, ⟨rfl, rfl, rfl⟩, h⟩,
            by rintro ⟨y, m, d, ⟨rfl, rfl, rfl⟩, h⟩; exact h⟩
      · simp [CustomerTable.parseDateAssume2025, structuralYMD, hd,
          h1, h2, mkDateZ_eq_invalid_iff]
        exact ⟨fun h => ⟨_, _, _, ⟨rfl, rfl, rfl⟩, h⟩,
          by rintro ⟨y, m, d, ⟨rfl, rfl, rfl⟩, h⟩; exact h⟩
    · simp [CustomerTable.parseDateAssume2025, structuralYMD, hd,
        h1, mkDateZ_eq_invalid_iff]
      exact ⟨fun h => ⟨_, _, _, ⟨rfl, rfl, rfl⟩, h⟩,
        by rintro ⟨y, m, d, ⟨rfl, rfl, rfl⟩, h⟩; exact h⟩

end DateNormalizer
